import Mathlib

/-!
Verification development for the listing ingestion pipeline of the
real-estate-intelligence repository: record validation and price parsing
(src/scrapers/funda/enhanced_scraper.py), the upsert writer
(FundaDataProcessor.process_and_store together with the table constraints of
src/infrastructure/database/schema.py), the batch buffer
(src/scrapers/funda/funda_scraper.py, BatchProcessor), the CBS fallback
collector (src/scrapers/cbs/cbs_data_collector.py) and the per-page loop of
EnhancedFundaScraper.scrape_city_listings.

Python dict records become a structure with Option fields where the source
may leave a field absent or None; Python floats are embedded as rationals,
and the one float computation whose rounding is observable (the mock price
product of the CBS generator) is embedded by its exact binary64 outcomes on
the finitely many arguments the program reaches; timestamps are embedded as
integers.
-/

/-- Canonical listing record, with the fields that
EnhancedFundaScraper.extract_listing_data produces (raw_html, a debugging
sample, is not modelled). Fields the code may leave as None are Options. -/
structure Listing where
  source : String
  source_id : Option String
  url : Option String
  address : Option String
  postal_code : Option String
  city : Option String
  price : Option ℚ
  size_m2 : Option ℤ
  rooms : Option ℤ
  property_type : String
  listing_type : String
  scraped_at : ℤ
deriving DecidableEq

/-- Python truthiness of an optional string: None and the empty string are
falsy, as tested by `if not listing.get(field)`. -/
def pyTruthyStr : Option String → Bool
  | none => false
  | some s => !s.isEmpty

/-- Python truthiness of an optional number: None and zero are falsy, as
tested by `if price and (...)`. -/
def pyTruthyRat : Option ℚ → Bool
  | none => false
  | some p => decide (p ≠ 0)

/-- EnhancedFundaScraper.validate_listing: requires truthy source_id, address
and city, then rejects a truthy price below 50000 or above 5000000. -/
def validate_listing (l : Listing) : Bool :=
  if !pyTruthyStr l.source_id then false
  else if !pyTruthyStr l.address then false
  else if !pyTruthyStr l.city then false
  else
    match l.price with
    | none => true
    | some p => if p ≠ 0 ∧ (p < 50000 ∨ 5000000 < p) then false else true

/-- Characters kept by the regular expression substitution
re.sub with pattern [^\d,.] replaced by the empty string: digits, the comma
and the dot (the Python pattern class \d is ASCII digits on these inputs). -/
def isDigitCommaDot (c : Char) : Bool := c.isDigit || c == ',' || c == '.'

/-- Value of a string of decimal digit characters read left to right, the
way Python float and int read the digit parts of a numeral. -/
def digitsToNat (cs : List Char) : ℕ :=
  cs.foldl (fun n c => 10 * n + (c.toNat - 48)) 0

/-- Python str.split on a single separator character: splitOnChar sep cs
is the list of maximal separator-free runs, with empty runs kept, so the
result always has one more part than there are separators. -/
def splitOnChar (sep : Char) : List Char → List (List Char)
  | [] => [[]]
  | c :: cs =>
    match splitOnChar sep cs with
    | [] => [[]]
    | p :: ps => if c == sep then [] :: p :: ps else (c :: p) :: ps

/-- Python float() restricted to the strings that reach it in
parse_price_text, which consist of digits and dots only: defined (a some)
exactly when there is at most one dot and at least one digit, in which case
the digits before the dot are the integer part and the digits after it the
fraction. Everything else raises ValueError in Python, embedded as none. -/
def pyFloatOfClean (cs : List Char) : Option ℚ :=
  if (cs.all fun c => c.isDigit || c == '.') &&
     decide (cs.count '.' ≤ 1) && (cs.any fun c => c.isDigit) then
    let ip := cs.takeWhile fun c => !(c == '.')
    let fp := (cs.dropWhile fun c => !(c == '.')).drop 1
    some ((digitsToNat ip : ℚ) + (digitsToNat fp : ℚ) / ((10 : ℚ) ^ fp.length))
  else none

/-- EnhancedFundaScraper.parse_price_text. Steps of the source, in order:
keep only digits, commas and dots; delete every dot; turn every comma into a
dot; then, when a dot remains (necessarily born from a comma), apply the
two-part decimal test (exactly two parts and at most two digits after the
dot) and parse, else strip dots and parse; a parse failure yields none. -/
def parse_price_text (price_text : String) : Option ℚ :=
  let kept := price_text.toList.filter isDigitCommaDot
  let price_clean :=
    (kept.filter fun c => !(c == '.')).map fun c => if c == ',' then '.' else c
  if price_clean.contains '.' then
    let parts := splitOnChar '.' price_clean
    if parts.length == 2 && decide ((parts.getD 1 []).length ≤ 2) then
      pyFloatOfClean price_clean
    else
      pyFloatOfClean (price_clean.filter fun c => !(c == '.'))
  else
    pyFloatOfClean price_clean

/-! Upsert writer: FundaDataProcessor.process_and_store runs, per listing, the
statement INSERT INTO property_listings (...) VALUES (...) ON CONFLICT
(source, source_id) DO UPDATE SET price = EXCLUDED.price, scraped_at =
EXCLUDED.scraped_at, updated_at = NOW(). The table carries the unique index
on (source, source_id) and NOT NULL constraints on source, source_id,
address, postal_code and city declared in
src/infrastructure/database/schema.py; the table is embedded as a list of
rows in physical order. The updated_at column, set only by the conflict
branch and read nowhere, is not modelled. -/

/-- Stored row, with the columns the INSERT statement of process_and_store
fills. NOT NULL columns are plain values, nullable ones Options. -/
structure StoredRow where
  source : String
  source_id : String
  url : Option String
  address : String
  postal_code : String
  city : String
  price : Option ℚ
  size_m2 : Option ℤ
  rooms : Option ℤ
  property_type : String
  listing_type : String
  scraped_at : ℤ
deriving DecidableEq

/-- Row matches the identity key (source, source_id) of the unique index. -/
def keyMatches (src sid : String) (r : StoredRow) : Bool :=
  r.source == src && r.source_id == sid

/-- Row the INSERT branch of the upsert statement writes for a listing whose
NOT NULL columns came out non-null. -/
def insertedRow (l : Listing) (sid addr pc cty : String) : StoredRow where
  source := l.source
  source_id := sid
  url := l.url
  address := addr
  postal_code := pc
  city := cty
  price := l.price
  size_m2 := l.size_m2
  rooms := l.rooms
  property_type := l.property_type
  listing_type := l.listing_type
  scraped_at := l.scraped_at

/-- The conflict branch DO UPDATE SET price = EXCLUDED.price, scraped_at =
EXCLUDED.scraped_at applied to one existing row. -/
def updatedRow (l : Listing) (r : StoredRow) : StoredRow :=
  { r with price := l.price, scraped_at := l.scraped_at }

/-- One execution of the upsert statement against table db. A NULL in a NOT
NULL column (source_id, address, postal_code or city) violates its
constraint and the statement errors; otherwise, when a row with the same
(source, source_id) already exists the conflict branch overwrites its price
and scraped_at in place, and when none exists a new row is appended. -/
def upsertOne (db : List StoredRow) (l : Listing) : Except Unit (List StoredRow) :=
  match l.source_id, l.address, l.postal_code, l.city with
  | some sid, some addr, some pc, some cty =>
    if db.any (keyMatches l.source sid) then
      Except.ok (db.map fun r =>
        if keyMatches l.source sid r then updatedRow l r else r)
    else
      Except.ok (db ++ [insertedRow l sid addr pc cty])
  | _, _, _, _ => Except.error ()

/-- Number of stored rows carrying the identity key (source, source_id). -/
def countKey (db : List StoredRow) (src sid : String) : ℕ :=
  match db with
  | [] => 0
  | r :: rs => (if keyMatches src sid r then 1 else 0) + countKey rs src sid

/-- What asyncpg Connection.execute returns for the upsert statement when it
succeeds: the command tag of the statement, not the rows of the RETURNING
clause. PostgreSQL reports INSERT 0 1 for an INSERT .. ON CONFLICT DO UPDATE
that affected one row whether the row was freshly inserted or
conflict-updated, so the tag is the same constant on both paths. -/
def executeTag : String := "INSERT 0 1"

/-- Counters returned by process_and_store. -/
structure Stats where
  inserted : ℕ
  updated : ℕ
  errors : ℕ
deriving DecidableEq

/-- Body of the per-listing loop of process_and_store: run the upsert; on
success compare the execute result with the text INSERT 0 1 to decide
between the inserted and updated counters; on error count the listing under
errors and leave the table as it was, continuing with the rest. -/
def storeStep (acc : List StoredRow × Stats) (l : Listing) : List StoredRow × Stats :=
  match upsertOne acc.1 l with
  | Except.ok db2 =>
    if executeTag == "INSERT 0 1" then
      (db2, { acc.2 with inserted := acc.2.inserted + 1 })
    else
      (db2, { acc.2 with updated := acc.2.updated + 1 })
  | Except.error _ => (acc.1, { acc.2 with errors := acc.2.errors + 1 })

/-- FundaDataProcessor.process_and_store over a table db: fold the
per-listing loop over the batch starting from zeroed counters (the early
return on an empty batch coincides with the empty fold). -/
def process_and_store (db : List StoredRow) (listings : List Listing) :
    List StoredRow × Stats :=
  listings.foldl storeStep (db, ⟨0, 0, 0⟩)

/-! Batch buffer: BatchProcessor of src/scrapers/funda/funda_scraper.py.
Its flush hands the whole buffer to one conn.executemany call; that call
either succeeds or raises, so it is embedded as a success predicate on the
batch, and a raise is the error branch of Except carrying the processor
state as the exception leaves it. -/

/-- BatchProcessor state: the configured batch_size and the buffer. -/
structure BatchProcessor where
  batch_size : ℕ
  buffer : List Listing
deriving DecidableEq

/-- BatchProcessor.flush: an empty buffer returns at once; otherwise the
entire buffer is handed to the writer as one batch, and only when that write
succeeds is the buffer reset to empty — when the writer raises, the
exception propagates with the buffer untouched. The ok value records the
batch handed to the writer, none when nothing was written. -/
def flush (w : List Listing → Bool) (bp : BatchProcessor) :
    Except BatchProcessor (Option (List Listing) × BatchProcessor) :=
  if bp.buffer.isEmpty then Except.ok (none, bp)
  else if w bp.buffer then Except.ok (some bp.buffer, { bp with buffer := [] })
  else Except.error bp

/-- BatchProcessor.process_listing: append the listing to the buffer, then
flush when the buffer length has reached batch_size. -/
def process_listing (w : List Listing → Bool) (bp : BatchProcessor) (l : Listing) :
    Except BatchProcessor (Option (List Listing) × BatchProcessor) :=
  let bp2 : BatchProcessor := { bp with buffer := bp.buffer ++ [l] }
  if bp2.batch_size ≤ bp2.buffer.length then flush w bp2
  else Except.ok (none, bp2)

/-- Feed listings one by one through process_listing, collecting the batches
each automatic flush handed to the writer, in order. -/
def runAdds (w : List Listing → Bool) (bp : BatchProcessor) :
    List Listing → Except BatchProcessor (List (List Listing) × BatchProcessor)
  | [] => Except.ok ([], bp)
  | l :: ls =>
    match process_listing w bp l with
    | Except.ok (none, bp2) => runAdds w bp2 ls
    | Except.ok (some b, bp2) => (runAdds w bp2 ls).map fun r => (b :: r.1, r.2)
    | Except.error e => Except.error e

/-! Fallback collector: CBSRealEstateCollector of
src/scrapers/cbs/cbs_data_collector.py. The external world (whether
test_api_connection succeeds, what fetch_sample_house_data produces, and the
run-dependent Python hash) is an explicit environment. -/

/-- Record of the CBS data frames. Rows of fetch_sample_house_data carry
region, period and source only; mock rows add the price, count and note
fields. The collected_at timestamp column is not modelled. -/
structure CBSRecord where
  region : String
  period : String
  source : String
  avg_sale_price : Option ℤ
  transaction_count : Option ℤ
  note : Option String
deriving DecidableEq

/-- Regions of generate_mock_cbs_data. -/
def cbs_regions : List String :=
  ["Amsterdam", "Rotterdam", "Utrecht", "Den Haag", "Eindhoven"]

/-- Periods of generate_mock_cbs_data. -/
def cbs_periods : List String :=
  ["2023JJ00", "2022JJ00", "2021JJ00", "2020JJ00"]

/-- The base_prices dict lookup with default 300000. -/
def base_prices (region : String) : ℤ :=
  if region = "Amsterdam" then 450000
  else if region = "Rotterdam" then 300000
  else if region = "Utrecht" then 380000
  else if region = "Den Haag" then 350000
  else if region = "Eindhoven" then 280000
  else 300000

/-- Python int(period[:4]) for the digit-initial period codes used here. -/
def periodYear (p : String) : ℤ := (digitsToNat (p.toList.take 4) : ℤ)

/-- Python int(base_price * growth_factor), with growth_factor =
1 + k * 0.05 and k = 2023 - year, as CPython evaluates it in IEEE binary64
for the arguments generate_mock_cbs_data reaches (the five configured base
prices and k in 0..3). 0.05 is not a binary fraction, and the rounded factor
is exactly 1 at k = 0, slightly above 1.05 and 1.1 at k = 1 and 2, but
slightly below 1.15 at k = 3 (the computed double is
2589569785738035 / 2251799813685248 < 23 / 20); the truncated k = 3
products of the bases 450000, 380000 and 350000 therefore come out one
below the exact decimal value, at 517499, 436999 and 402499, while every
other reached product truncates to the exact decimal value (for k = 2 the
doubles sit just above it, within the truncated unit). Arguments the
generator never reaches fall through to the exact rational formula. -/
def int_float_price (base : ℤ) (k : ℤ) : ℤ :=
  if k = 0 then base
  else if k = 3 ∧ base = 450000 then 517499
  else if k = 3 ∧ base = 380000 then 436999
  else if k = 3 ∧ base = 350000 then 402499
  else if (k = 1 ∨ k = 2 ∨ k = 3) ∧
      (base = 450000 ∨ base = 300000 ∨ base = 380000 ∨
       base = 350000 ∨ base = 280000) then
    base * (100 + 5 * k) / 100
  else ⌊(base : ℚ) * (1 + (k : ℚ) * (5 / 100))⌋

/-- One row of generate_mock_cbs_data: growth_factor = 1 + (2023 - year) *
0.05 and avg_price = int(base_price * growth_factor), evaluated in binary64
by int_float_price. The run-randomized Python hash behind transaction_count
is the parameter h. -/
def mock_record (h : String → ℕ) (region period : String) : CBSRecord :=
  { region := region, period := period, source := "cbs_mock",
    avg_sale_price := some (int_float_price (base_prices region) (2023 - periodYear period)),
    transaction_count := some ((1200 : ℤ) + ((h (region ++ period) % 800 : ℕ) : ℤ)),
    note := some "Generated for development - replace with real CBS data" }

/-- CBSRealEstateCollector.generate_mock_cbs_data: one record per region and
period, outer loop over regions, inner over periods. -/
def generate_mock_cbs_data (h : String → ℕ) : List CBSRecord :=
  cbs_regions.flatMap fun region => cbs_periods.map fun period => mock_record h region period

/-- Outcome of the await of fetch_sample_house_data as seen by the caller:
either the data frame it returned (fetch_sample_house_data itself turns its
HTTP errors and timeouts into an empty frame) or an exception escaping it. -/
inductive FetchOutcome
  | ok (records : List CBSRecord)
  | raised
deriving DecidableEq

/-- External environment of one collect_cbs_data_with_fallback run: the
test_api_connection verdict, the fetch outcome, and the Python string hash
of this interpreter run. -/
structure CBSEnv where
  api_available : Bool
  fetch : FetchOutcome
  h : String → ℕ

/-- CBSRealEstateCollector.collect_cbs_data_with_fallback: probe the API
first and fall back to mock data when the probe fails, the fetch raises, or
the fetch comes back empty; a non-empty real frame is returned as is. -/
def collect_cbs_data_with_fallback (env : CBSEnv) : List CBSRecord :=
  if env.api_available then
    match env.fetch with
    | FetchOutcome.ok records =>
      if records.isEmpty then generate_mock_cbs_data env.h else records
    | FetchOutcome.raised => generate_mock_cbs_data env.h
  else generate_mock_cbs_data env.h

/-! City scrape loop: EnhancedFundaScraper.scrape_city_listings. Each page
visit either raises (fetch_page gives up after its retries, or parsing
raises) or parses to a list of listings. The loop body appends a non-empty
page, breaks on an empty page, and on an exception logs and continues with
the next page. -/

/-- Outcome of one page of the city scrape. -/
inductive PageResult
  | raised
  | parsed (ls : List Listing)
deriving DecidableEq

/-- The page loop of scrape_city_listings over the outcomes of the visited
pages, in page order: a raising page is skipped (continue), an empty parse
stops the loop (break), a non-empty parse is collected. -/
def scrape_city_listings : List PageResult → List Listing
  | [] => []
  | PageResult.raised :: rest => scrape_city_listings rest
  | PageResult.parsed [] :: _ => []
  | PageResult.parsed (l :: ls) :: rest => (l :: ls) ++ scrape_city_listings rest

/-! Sample data used by witnesses and counterexamples. -/

/-- A fully populated listing whose price is the Python float 0.0, which is
falsy. -/
def zeroPriceListing : Listing where
  source := "funda"
  source_id := some "88001"
  url := some "/koop/amsterdam/huis-88001/"
  address := some "Teststraat 1"
  postal_code := some "1234AB"
  city := some "amsterdam"
  price := some 0
  size_m2 := some 85
  rooms := some 3
  property_type := "house"
  listing_type := "sale"
  scraped_at := 0

/-- First of two writes of the same identity key, price 425000. -/
def listingV1 : Listing :=
  { zeroPriceListing with price := some 425000, scraped_at := 1 }

/-- Second write of the same identity key, price 450000 and a later
scraped_at. -/
def listingV2 : Listing :=
  { zeroPriceListing with price := some 450000, scraped_at := 2 }

/-- A batch writer whose executemany call always succeeds. -/
def alwaysOk : List Listing → Bool := fun _ => true

/-- A batch writer whose executemany call always raises. -/
def alwaysFail : List Listing → Bool := fun _ => false

/-! Theorems. -/

/-- Helper for concrete runs of the price parser: reduce the call to the
unsimplified rational expression by rfl, then close the arithmetic. -/
theorem parse_price_eval (s : String) (ip fp : ℕ) (e : ℕ) (q : ℚ)
    (h : parse_price_text s = some (((ip : ℕ) : ℚ) + ((fp : ℕ) : ℚ) / ((10 : ℚ) ^ e)))
    (hq : ((ip : ℕ) : ℚ) + ((fp : ℕ) : ℚ) / ((10 : ℚ) ^ e) = q) :
    parse_price_text s = some q := by rw [h, hq]

/-- C3 counterexample: the claim says the decimal-form string 12.50 parses
to 12.50, but the code strips every dot before the trailing-group test, so
it parses to 1250. -/
theorem parse_price_text_dot_decimal_cex :
    parse_price_text ("12.50") = some 1250 ∧ (1250 : ℚ) ≠ 25 / 2 := by
  constructor
  · exact parse_price_eval _ 1250 0 0 _ rfl (by norm_num)
  · norm_num

/-- C3 (amended): the parser maps the string € 425.000 k.k. to 425000; every
dot of the input is stripped as a thousands separator before the at-most-two
trailing digits rule, which only ever sees a dot arising from a comma, so
the comma-decimal string 12,50 parses to 12.50 while the dot-decimal string
12.50 parses to 1250; unparseable input yields none rather than an
exception. -/
theorem parse_price_text_spec :
    parse_price_text ("€ 425.000 k.k.") = some 425000 ∧
    parse_price_text ("12,50") = some (25 / 2) ∧
    parse_price_text ("12.50") = some 1250 ∧
    parse_price_text ("") = none ∧
    parse_price_text ("abc") = none ∧
    parse_price_text ("€ k.k.") = none := by
  refine ⟨?_, ?_, ?_, rfl, rfl, rfl⟩
  · exact parse_price_eval _ 425000 0 0 _ rfl (by norm_num)
  · exact parse_price_eval _ 12 50 2 _ rfl (by norm_num)
  · exact parse_price_eval _ 1250 0 0 _ rfl (by norm_num)

/-- C4 counterexample: a listing whose price is present but equal to 0
passes validation although 0 is below the 50000 lower bound, so validation
is not equivalent to the claimed present-price range check. -/
theorem validate_listing_range_cex :
    validate_listing zeroPriceListing = true ∧
    zeroPriceListing.price = some 0 ∧ (0 : ℚ) < 50000 := by
  refine ⟨by decide, rfl, by norm_num⟩

/-- C4 (amended): validate_listing returns true exactly when source_id,
address and city are all truthy (present and non-empty) and the price, when
present and nonzero, is neither below 50000 nor above 5000000; price 50001
is accepted, 49999 and 5000001 are rejected, and a missing price or missing
size_m2 alone is never a failure. -/
theorem validate_listing_spec :
    (∀ l : Listing, validate_listing l = true ↔
      (pyTruthyStr l.source_id = true ∧ pyTruthyStr l.address = true ∧
       pyTruthyStr l.city = true ∧
       ∀ p : ℚ, l.price = some p → p ≠ 0 → 50000 ≤ p ∧ p ≤ 5000000)) ∧
    validate_listing { zeroPriceListing with price := some 50001 } = true ∧
    validate_listing { zeroPriceListing with price := some 49999 } = false ∧
    validate_listing { zeroPriceListing with price := some 5000001 } = false ∧
    validate_listing { zeroPriceListing with price := none } = true ∧
    validate_listing { zeroPriceListing with price := some 450000, size_m2 := none } = true := by
  refine ⟨?_, by decide, by decide, by decide, by decide, by decide⟩
  intro l
  unfold validate_listing
  cases hs : pyTruthyStr l.source_id with
  | false => simp [hs]
  | true =>
    cases ha : pyTruthyStr l.address with
    | false => simp [hs, ha]
    | true =>
      cases hc : pyTruthyStr l.city with
      | false => simp [hs, ha, hc]
      | true =>
        cases hp : l.price with
        | none => simp [hs, ha, hc, hp]
        | some p =>
          simp only [hs, ha, hc, hp, Bool.not_true, Bool.false_eq_true,
            if_false, true_and, Option.some.injEq]
          constructor
          · intro h q hq hq0
            subst hq
            by_cases hcond : p ≠ 0 ∧ (p < 50000 ∨ 5000000 < p)
            · rw [if_pos hcond] at h; cases h
            · push_neg at hcond
              rcases hcond hq0 with ⟨h1, h2⟩
              exact ⟨h1, h2⟩
          · intro h
            by_cases hcond : p ≠ 0 ∧ (p < 50000 ∨ 5000000 < p)
            · rcases hcond with ⟨hp0, hlo | hhi⟩
              · rcases h p rfl hp0 with ⟨h1, _⟩; linarith
              · rcases h p rfl hp0 with ⟨_, h2⟩; linarith
            · rw [if_neg hcond]

/-- C10: validate_listing accepts a listing whose present price is exactly
0: the range check is guarded by Python truthiness of the price, so a zero
price skips it although 0 is below the 50000 lower bound, and validation
succeeds whenever the identity fields are truthy. -/
theorem validate_listing_zero_price (l : Listing)
    (hp : l.price = some 0)
    (hs : pyTruthyStr l.source_id = true)
    (ha : pyTruthyStr l.address = true)
    (hc : pyTruthyStr l.city = true) :
    validate_listing l = true := by
  unfold validate_listing
  simp [hs, ha, hc, hp]

/-- Witness for C10 at a concrete listing with price 0. -/
theorem validate_listing_zero_price_witness :
    validate_listing zeroPriceListing = true :=
  validate_listing_zero_price zeroPriceListing rfl rfl rfl rfl

/-! Upsert writer lemmas and claims. -/

/-- The conflict-branch update leaves the identity key of a row unchanged. -/
theorem keyMatches_updatedRow (src sid : String) (l : Listing) (r : StoredRow) :
    keyMatches src sid (updatedRow l r) = keyMatches src sid r := rfl

theorem countKey_append (db1 db2 : List StoredRow) (src sid : String) :
    countKey (db1 ++ db2) src sid = countKey db1 src sid + countKey db2 src sid := by
  induction db1 with
  | nil => simp [countKey]
  | cons r rs ih => simp [countKey, ih]; omega

theorem countKey_map_update (db : List StoredRow) (src sid : String) (l : Listing) :
    countKey (db.map fun r => if keyMatches src sid r then updatedRow l r else r) src sid
      = countKey db src sid := by
  induction db with
  | nil => rfl
  | cons r rs ih =>
    by_cases h : keyMatches src sid r = true
    · simp [countKey, h, keyMatches_updatedRow, ih]
    · simp [countKey, h, ih]

theorem countKey_pos_iff (db : List StoredRow) (src sid : String) :
    0 < countKey db src sid ↔ db.any (keyMatches src sid) = true := by
  induction db with
  | nil => simp [countKey]
  | cons r rs ih =>
    by_cases h : keyMatches src sid r = true
    · simp [countKey, h]
    · simp [countKey, h, ih]

/-- A successful run of the upsert statement, with the conflict test made
explicit. -/
theorem upsertOne_ok (db : List StoredRow) (l : Listing) (sid addr pc cty : String)
    (hi : l.source_id = some sid) (ha : l.address = some addr)
    (hp : l.postal_code = some pc) (hc : l.city = some cty) :
    upsertOne db l = Except.ok
      (if db.any (keyMatches l.source sid) then
        db.map fun r => if keyMatches l.source sid r then updatedRow l r else r
      else db ++ [insertedRow l sid addr pc cty]) := by
  unfold upsertOne
  rw [hi, ha, hp, hc]
  by_cases h : db.any (keyMatches l.source sid) = true <;> simp [h]

/-- The table after process_and_store of a one-listing batch whose NOT NULL
columns are all present. -/
theorem process_single_db (db : List StoredRow) (l : Listing) (sid addr pc cty : String)
    (hi : l.source_id = some sid) (ha : l.address = some addr)
    (hp : l.postal_code = some pc) (hc : l.city = some cty) :
    (process_and_store db [l]).1 =
      (if db.any (keyMatches l.source sid) then
        db.map fun r => if keyMatches l.source sid r then updatedRow l r else r
      else db ++ [insertedRow l sid addr pc cty]) := by
  show (storeStep (db, ⟨0, 0, 0⟩) l).1 = _
  unfold storeStep
  rw [upsertOne_ok db l sid addr pc cty hi ha hp hc]
  rfl

/-- The freshly inserted row carries the identity key of its listing. -/
theorem keyMatches_insertedRow (l : Listing) (sid addr pc cty : String) :
    keyMatches l.source sid (insertedRow l sid addr pc cty) = true := by
  simp [keyMatches, insertedRow]

/-- C1: writing two listings with the same (source, source_id) identity key
in sequence through the upsert writer leaves exactly one stored row for that
key, whose price and scraped_at are the values of the second write: the upsert
updates in place and never duplicates an identity. The table is assumed to
satisfy the unique-index invariant (at most one row per key) beforehand, and
both listings satisfy the NOT NULL columns so that both writes succeed. -/
theorem upsert_same_key_twice (db : List StoredRow) (l1 l2 : Listing) (sid : String)
    (hsrc : l2.source = l1.source)
    (h1i : l1.source_id = some sid) (h2i : l2.source_id = some sid)
    (h1a : l1.address.isSome = true) (h1p : l1.postal_code.isSome = true)
    (h1c : l1.city.isSome = true)
    (h2a : l2.address.isSome = true) (h2p : l2.postal_code.isSome = true)
    (h2c : l2.city.isSome = true)
    (hdb : countKey db l1.source sid ≤ 1) :
    countKey (process_and_store (process_and_store db [l1]).1 [l2]).1 l1.source sid = 1 ∧
    ∀ r ∈ (process_and_store (process_and_store db [l1]).1 [l2]).1,
      keyMatches l1.source sid r = true →
        r.price = l2.price ∧ r.scraped_at = l2.scraped_at := by
  rcases Option.isSome_iff_exists.mp h1a with ⟨addr1, ha1⟩
  rcases Option.isSome_iff_exists.mp h1p with ⟨pc1, hp1⟩
  rcases Option.isSome_iff_exists.mp h1c with ⟨cty1, hc1⟩
  rcases Option.isSome_iff_exists.mp h2a with ⟨addr2, ha2⟩
  rcases Option.isSome_iff_exists.mp h2p with ⟨pc2, hp2⟩
  rcases Option.isSome_iff_exists.mp h2c with ⟨cty2, hc2⟩
  have hd1 := process_single_db db l1 sid addr1 pc1 cty1 h1i ha1 hp1 hc1
  -- the table after the first write holds the key exactly once
  have hcount1 : countKey (process_and_store db [l1]).1 l1.source sid = 1 := by
    rw [hd1]
    by_cases hx : db.any (keyMatches l1.source sid) = true
    · rw [if_pos hx, countKey_map_update]
      have := (countKey_pos_iff db l1.source sid).mpr hx
      omega
    · rw [if_neg hx, countKey_append]
      have h0 : countKey db l1.source sid = 0 := by
        by_contra hne
        exact hx ((countKey_pos_iff db l1.source sid).mp (Nat.pos_of_ne_zero hne))
      simp [countKey, keyMatches_insertedRow, h0]
  have hany1 : (process_and_store db [l1]).1.any (keyMatches l1.source sid) = true :=
    (countKey_pos_iff _ l1.source sid).mp (by omega)
  have hd2 := process_single_db (process_and_store db [l1]).1 l2 sid addr2 pc2 cty2
    h2i ha2 hp2 hc2
  rw [hsrc] at hd2
  rw [hd2, if_pos hany1]
  constructor
  · rw [countKey_map_update]; exact hcount1
  · intro r hr hkey
    rcases List.mem_map.mp hr with ⟨r0, _, hr0⟩
    by_cases hk0 : keyMatches l1.source sid r0 = true
    · rw [if_pos hk0] at hr0
      subst hr0
      simp [updatedRow]
    · rw [if_neg hk0] at hr0
      subst hr0
      exact absurd hkey hk0

/-- Witness for C1: two concrete writes of the key (funda, 88001) into an
empty table, the second with price 450000 and scraped_at 2. -/
theorem upsert_same_key_twice_witness :
    countKey (process_and_store (process_and_store [] [listingV1]).1 [listingV2]).1
        listingV1.source "88001" = 1 ∧
    ∀ r ∈ (process_and_store (process_and_store [] [listingV1]).1 [listingV2]).1,
      keyMatches listingV1.source "88001" r = true →
        r.price = listingV2.price ∧ r.scraped_at = listingV2.scraped_at :=
  upsert_same_key_twice [] listingV1 listingV2 "88001" rfl rfl rfl rfl rfl rfl
    rfl rfl rfl (by decide)

/-- C2 evidence: re-running the same one-listing batch leaves the stored
table unchanged, but the second run reports inserted = 1 and updated = 0,
not inserted = 0: asyncpg execute returns the command tag, which is
INSERT 0 1 for a conflict-update as well, so the updated branch of
process_and_store is unreachable and every successful write counts as
inserted. -/
theorem second_write_reports_inserted :
    (process_and_store (process_and_store [] [listingV1]).1 [listingV1]).1 =
      (process_and_store [] [listingV1]).1 ∧
    (process_and_store (process_and_store [] [listingV1]).1 [listingV1]).2 =
      ⟨1, 0, 0⟩ ∧
    (process_and_store [] [listingV1]).2 = ⟨1, 0, 0⟩ := by
  refine ⟨rfl, rfl, rfl⟩

/-- Folding the store loop from shifted counters shifts the final counters
by the same amounts and leaves the final table unchanged. -/
theorem foldl_storeStep_shift (ls : List Listing) (db : List StoredRow) (s : Stats) :
    (ls.foldl storeStep (db, s)).1 = (ls.foldl storeStep (db, ⟨0, 0, 0⟩)).1 ∧
    (ls.foldl storeStep (db, s)).2.inserted
      = s.inserted + (ls.foldl storeStep (db, ⟨0, 0, 0⟩)).2.inserted ∧
    (ls.foldl storeStep (db, s)).2.updated
      = s.updated + (ls.foldl storeStep (db, ⟨0, 0, 0⟩)).2.updated ∧
    (ls.foldl storeStep (db, s)).2.errors
      = s.errors + (ls.foldl storeStep (db, ⟨0, 0, 0⟩)).2.errors := by
  induction ls generalizing db s with
  | nil => simp
  | cons l ls ih =>
    rw [List.foldl_cons, List.foldl_cons]
    cases h : upsertOne db l with
    | ok db2 =>
      have hstep : ∀ t : Stats, storeStep (db, t) l =
          (db2, { t with inserted := t.inserted + 1 }) := by
        intro t
        unfold storeStep
        rw [h]
        rfl
      rw [hstep s, hstep ⟨0, 0, 0⟩]
      obtain ⟨d1, i1, u1, e1⟩ := ih db2 { s with inserted := s.inserted + 1 }
      obtain ⟨d2, i2, u2, e2⟩ := ih db2 ⟨0 + 1, 0, 0⟩
      refine ⟨by rw [d1, d2], ?_, ?_, ?_⟩
      · rw [i1, i2]; simp; omega
      · rw [u1, u2]; simp
      · rw [e1, e2]; simp
    | error e =>
      have hstep : ∀ t : Stats, storeStep (db, t) l =
          (db, { t with errors := t.errors + 1 }) := by
        intro t
        unfold storeStep
        rw [h]
      rw [hstep s, hstep ⟨0, 0, 0⟩]
      obtain ⟨d1, i1, u1, e1⟩ := ih db { s with errors := s.errors + 1 }
      obtain ⟨d2, i2, u2, e2⟩ := ih db ⟨0, 0, 0 + 1⟩
      refine ⟨by rw [d1, d2], ?_, ?_, ?_⟩
      · rw [i1, i2]; simp
      · rw [u1, u2]; simp
      · rw [e1, e2]; simp; omega

/-- C7: the upsert writer isolates per-listing failures: a listing whose
write errors only increments the errors counter, the table and the other
counters coming out as if the loop had run on the remaining listings alone,
so one bad row never aborts the batch; and for every batch the three
counters always sum to the batch length. -/
theorem process_and_store_error_isolation :
    (∀ (db : List StoredRow) (listings : List Listing),
        (process_and_store db listings).2.inserted
          + (process_and_store db listings).2.updated
          + (process_and_store db listings).2.errors = listings.length) ∧
    (∀ (db : List StoredRow) (l : Listing) (rest : List Listing),
        upsertOne db l = Except.error () →
          (process_and_store db (l :: rest)).1 = (process_and_store db rest).1 ∧
          (process_and_store db (l :: rest)).2.errors
            = (process_and_store db rest).2.errors + 1 ∧
          (process_and_store db (l :: rest)).2.inserted
            = (process_and_store db rest).2.inserted ∧
          (process_and_store db (l :: rest)).2.updated
            = (process_and_store db rest).2.updated) := by
  constructor
  · intro db ls
    induction ls generalizing db with
    | nil => rfl
    | cons l ls ih =>
      simp only [process_and_store, List.foldl_cons, List.length_cons]
      cases h : upsertOne db l with
      | ok db2 =>
        have hstep : storeStep (db, ⟨0, 0, 0⟩) l = (db2, ⟨0 + 1, 0, 0⟩) := by
          unfold storeStep; rw [h]; rfl
        rw [hstep]
        obtain ⟨_, i2, u2, e2⟩ := foldl_storeStep_shift ls db2 ⟨0 + 1, 0, 0⟩
        rw [i2, u2, e2]
        have hih := ih db2
        simp only [process_and_store] at hih
        dsimp only
        omega
      | error e =>
        have hstep : storeStep (db, ⟨0, 0, 0⟩) l = (db, ⟨0, 0, 0 + 1⟩) := by
          unfold storeStep; rw [h]
        rw [hstep]
        obtain ⟨_, i2, u2, e2⟩ := foldl_storeStep_shift ls db ⟨0, 0, 0 + 1⟩
        rw [i2, u2, e2]
        have hih := ih db
        simp only [process_and_store] at hih
        dsimp only
        omega
  · intro db l rest h
    have hstep : storeStep (db, ⟨0, 0, 0⟩) l = (db, ⟨0, 0, 0 + 1⟩) := by
      unfold storeStep; rw [h]
    simp only [process_and_store, List.foldl_cons]
    rw [hstep]
    obtain ⟨d2, i2, u2, e2⟩ := foldl_storeStep_shift rest db ⟨0, 0, 0 + 1⟩
    exact ⟨d2, by rw [e2]; dsimp only; omega, by rw [i2]; dsimp only; omega,
      by rw [u2]; dsimp only; omega⟩

/-! Batch buffer lemmas and claims. -/

/-- Appending below capacity does not flush. -/
theorem process_listing_no_flush (w : List Listing → Bool) (bp : BatchProcessor)
    (l : Listing) (h : bp.buffer.length + 1 < bp.batch_size) :
    process_listing w bp l = Except.ok (none, { bp with buffer := bp.buffer ++ [l] }) := by
  unfold process_listing
  have hlt : ¬ bp.batch_size ≤ (bp.buffer ++ [l]).length := by
    simp
    omega
  rw [if_neg hlt]

/-- Appending the listing that reaches capacity flushes the whole buffer
when the write succeeds. -/
theorem process_listing_flush_at (bp : BatchProcessor) (l : Listing)
    (h : bp.buffer.length + 1 = bp.batch_size) :
    process_listing alwaysOk bp l =
      Except.ok (some (bp.buffer ++ [l]), { bp with buffer := [] }) := by
  unfold process_listing flush
  have hge : bp.batch_size ≤ (bp.buffer ++ [l]).length := by
    simp
    omega
  rw [if_pos hge]
  have hne : ((bp.buffer ++ [l]).isEmpty) = false := by
    simp
  rw [hne]
  simp [alwaysOk]

/-- Unfolding runAdds on a listing that is buffered without a flush. -/
theorem runAdds_cons_none (w : List Listing → Bool) (bp bp2 : BatchProcessor)
    (l : Listing) (ls : List Listing)
    (hpl : process_listing w bp l = Except.ok (none, bp2)) :
    runAdds w bp (l :: ls) = runAdds w bp2 ls := by
  simp only [runAdds, hpl]

/-- Unfolding runAdds on a listing that triggers a successful flush. -/
theorem runAdds_cons_some (w : List Listing → Bool) (bp bp2 : BatchProcessor)
    (l : Listing) (ls : List Listing) (b : List Listing)
    (hpl : process_listing w bp l = Except.ok (some b, bp2)) :
    runAdds w bp (l :: ls) = (runAdds w bp2 ls).map fun r => (b :: r.1, r.2) := by
  simp only [runAdds, hpl]

/-- Unfolding runAdds on a listing whose flush raises. -/
theorem runAdds_cons_error (w : List Listing → Bool) (bp e : BatchProcessor)
    (l : Listing) (ls : List Listing)
    (hpl : process_listing w bp l = Except.error e) :
    runAdds w bp (l :: ls) = Except.error e := by
  simp only [runAdds, hpl]

/-- Adding listings that leave the buffer short of capacity produces no
flush and just extends the buffer. -/
theorem runAdds_fill (w : List Listing → Bool) (bp : BatchProcessor) (ls : List Listing)
    (h : bp.buffer.length + ls.length < bp.batch_size) :
    runAdds w bp ls = Except.ok ([], { bp with buffer := bp.buffer ++ ls }) := by
  induction ls generalizing bp with
  | nil =>
    show Except.ok ([], bp) = _
    cases bp
    simp
  | cons l ls ih =>
    rw [runAdds_cons_none w bp { bp with buffer := bp.buffer ++ [l] } l ls
      (process_listing_no_flush w bp l (by simp at h ⊢; omega))]
    rw [ih { bp with buffer := bp.buffer ++ [l] } (by simp at h ⊢; omega)]
    cases bp
    simp

/-- runAdds over a concatenation: once the first stretch succeeds, the whole
run is the first run followed by the second from the state it left, the
flushed batches concatenating. -/
theorem runAdds_append (w : List Listing → Bool) (bp : BatchProcessor)
    (xs ys : List Listing) (fs : List (List Listing)) (bp2 : BatchProcessor)
    (h : runAdds w bp xs = Except.ok (fs, bp2)) :
    runAdds w bp (xs ++ ys) =
      (runAdds w bp2 ys).map fun r => (fs ++ r.1, r.2) := by
  induction xs generalizing bp fs with
  | nil =>
    rw [show runAdds w bp ([] : List Listing) = Except.ok ([], bp) from rfl] at h
    injection h with h1
    injection h1 with h2 h3
    subst h2
    subst h3
    show runAdds w bp ys = _
    cases hys : runAdds w bp ys with
    | ok v => simp [Except.map]
    | error e => simp [Except.map]
  | cons x xs ih =>
    rw [List.cons_append]
    cases hpl : process_listing w bp x with
    | ok v =>
      rcases v with ⟨b, bpn⟩
      cases b with
      | none =>
        rw [runAdds_cons_none w bp bpn x xs hpl] at h
        rw [runAdds_cons_none w bp bpn x (xs ++ ys) hpl]
        exact ih bpn fs h
      | some batch =>
        rw [runAdds_cons_some w bp bpn x xs batch hpl] at h
        rw [runAdds_cons_some w bp bpn x (xs ++ ys) batch hpl]
        cases hrest : runAdds w bpn xs with
        | ok v2 =>
          rcases v2 with ⟨bs, bpf⟩
          rw [hrest] at h
          simp [Except.map] at h
          rcases h with ⟨hfs, hbp⟩
          subst hbp
          rw [ih bpn bs hrest, ← hfs]
          cases hys : runAdds w bpf ys with
          | ok v3 => rcases v3 with ⟨gs, bpg⟩; simp [Except.map]
          | error e2 => simp [Except.map]
        | error e2 =>
          rw [hrest] at h
          simp [Except.map] at h
    | error e =>
      rw [runAdds_cons_error w bp e x xs hpl] at h
      cases h

/-- A stretch of listings exactly one capacity long, fed into an empty
buffer, flushes once, as the whole stretch in order, and leaves the buffer
empty again. -/
theorem runAdds_chunk (n : ℕ) (cs : List Listing) (hn : 0 < n) (hc : cs.length = n) :
    runAdds alwaysOk ⟨n, []⟩ cs = Except.ok ([cs], ⟨n, []⟩) := by
  have hne : cs ≠ [] := by
    intro hemp
    rw [hemp] at hc
    simp at hc
    omega
  have hsplit : cs.dropLast ++ [cs.getLast hne] = cs := List.dropLast_append_getLast hne
  have hlen : cs.dropLast.length = n - 1 := by
    rw [List.length_dropLast, hc]
  have hfill := runAdds_fill alwaysOk ⟨n, []⟩ cs.dropLast
    (by simp [hlen]; omega)
  have happ := runAdds_append alwaysOk ⟨n, []⟩ cs.dropLast [cs.getLast hne]
    [] { batch_size := n, buffer := [] ++ cs.dropLast } hfill
  rw [hsplit] at happ
  rw [happ]
  have hflush := process_listing_flush_at { batch_size := n, buffer := [] ++ cs.dropLast }
    (cs.getLast hne) (by simp [hlen]; omega)
  rw [runAdds_cons_some alwaysOk { batch_size := n, buffer := [] ++ cs.dropLast }
    { batch_size := n, buffer := [] } (cs.getLast hne) []
    (([] ++ cs.dropLast) ++ [cs.getLast hne]) hflush]
  rw [show runAdds alwaysOk (⟨n, []⟩ : BatchProcessor) [] =
    Except.ok ([], (⟨n, []⟩ : BatchProcessor)) from rfl]
  simp [Except.map]
  exact hsplit

/-- C5: a buffer of capacity 100, starting empty, fed 250 listings one by
one, flushes automatically exactly twice, handing the writer the first 100
and the second 100 listings in insertion order, and is left holding the last
50 until an explicit flush; in general an automatic flush fires in
process_listing exactly when the pending count reaches the configured
capacity, and below capacity the listing is only appended. -/
theorem batch_buffer_capacity_behavior :
    (∀ ls : List Listing, ls.length = 250 →
        runAdds alwaysOk ⟨100, []⟩ ls =
          Except.ok ([ls.take 100, (ls.drop 100).take 100], ⟨100, ls.drop 200⟩)) ∧
    (∀ (w : List Listing → Bool) (bp : BatchProcessor) (l : Listing),
        bp.buffer.length + 1 < bp.batch_size →
          process_listing w bp l = Except.ok (none, { bp with buffer := bp.buffer ++ [l] })) ∧
    (∀ (bp : BatchProcessor) (l : Listing),
        bp.buffer.length + 1 = bp.batch_size →
          process_listing alwaysOk bp l =
            Except.ok (some (bp.buffer ++ [l]), { bp with buffer := [] })) := by
  refine ⟨?_, process_listing_no_flush, process_listing_flush_at⟩
  intro ls hlen
  have h1 : (ls.take 100).length = 100 := by
    rw [List.length_take, hlen]
    omega
  have hchunk1 := runAdds_chunk 100 (ls.take 100) (by norm_num) h1
  have happ1 := runAdds_append alwaysOk ⟨100, []⟩ (ls.take 100) (ls.drop 100)
    [ls.take 100] ⟨100, []⟩ hchunk1
  rw [List.take_append_drop] at happ1
  have h2 : ((ls.drop 100).take 100).length = 100 := by
    rw [List.length_take, List.length_drop, hlen]
    omega
  have hchunk2 := runAdds_chunk 100 ((ls.drop 100).take 100) (by norm_num) h2
  have happ2 := runAdds_append alwaysOk ⟨100, []⟩ ((ls.drop 100).take 100)
    ((ls.drop 100).drop 100) [(ls.drop 100).take 100] ⟨100, []⟩ hchunk2
  rw [List.take_append_drop] at happ2
  have h3 : ((ls.drop 100).drop 100).length = 50 := by
    simp [hlen]
  have hfill := runAdds_fill alwaysOk ⟨100, []⟩ ((ls.drop 100).drop 100)
    (by simp [h3]; omega)
  rw [hfill] at happ2
  rw [happ2] at happ1
  rw [happ1]
  simp [Except.map, List.drop_drop]

/-- C6 counterexample: a flush whose executemany raises leaves the pending
listing in the buffer instead of clearing it, so the buffer is not cleared
regardless of writer failure. -/
theorem flush_writer_failure_cex :
    flush alwaysFail ⟨100, [zeroPriceListing]⟩ =
      Except.error ⟨100, [zeroPriceListing]⟩ ∧
    (⟨100, [zeroPriceListing]⟩ : BatchProcessor).buffer ≠ [] := by
  constructor
  · rfl
  · simp

/-- C6 (amended): flush hands the entire pending sequence to the writer as
one batch and clears it only when the write succeeds: a flush that returns
normally leaves an empty buffer, and hands nothing when the buffer was
already empty; a flush whose writer raises propagates the exception with the
buffer left unchanged. -/
theorem flush_clears_only_on_success :
    ∀ (w : List Listing → Bool) (bp : BatchProcessor),
      (∀ out bp2, flush w bp = Except.ok (out, bp2) →
        bp2.buffer = [] ∧ (bp.buffer = [] → out = none) ∧
        (bp.buffer ≠ [] → out = some bp.buffer ∧ w bp.buffer = true)) ∧
      (∀ bp2, flush w bp = Except.error bp2 →
        bp2 = bp ∧ w bp.buffer = false ∧ bp.buffer ≠ []) := by
  intro w bp
  unfold flush
  by_cases hemp : bp.buffer.isEmpty = true
  · rw [if_pos hemp]
    have hnil : bp.buffer = [] := by
      cases hbuf : bp.buffer with
      | nil => rfl
      | cons a as => rw [hbuf] at hemp; simp at hemp
    constructor
    · intro out bp2 h
      injection h with h1
      injection h1 with h2 h3
      subst h2
      subst h3
      exact ⟨hnil, fun _ => rfl, fun hne => absurd hnil hne⟩
    · intro bp2 h
      cases h
  · rw [if_neg hemp]
    have hne : bp.buffer ≠ [] := by
      intro hn
      rw [hn] at hemp
      simp at hemp
    by_cases hw : w bp.buffer = true
    · rw [if_pos hw]
      constructor
      · intro out bp2 h
        injection h with h1
        injection h1 with h2 h3
        subst h2
        subst h3
        exact ⟨rfl, fun he => absurd he hne, fun _ => ⟨rfl, hw⟩⟩
      · intro bp2 h
        cases h
    · rw [if_neg hw]
      constructor
      · intro out bp2 h
        cases h
      · intro bp2 h
        injection h with h1
        subst h1
        exact ⟨rfl, by revert hw; cases w bp.buffer <;> simp, hne⟩

/-- C9 counterexample: a permanent error on page 1 (an exception such as a
non-rate-limit 4xx surfacing from fetch_page) does not end the run: the loop
continues and collects the listing of page 2, so the result is not just what
earlier pages had yielded. -/
theorem scrape_error_page_continues_cex :
    scrape_city_listings
        [PageResult.raised, PageResult.parsed [zeroPriceListing]] =
      [zeroPriceListing] ∧
    [zeroPriceListing] ≠ ([] : List Listing) := by
  constructor
  · rfl
  · simp

/-- C9 (amended): during a city scrape, a page that raises (a non-rate-limit
failure surfacing from fetch or parsing) is logged and skipped, the run
continuing with the later pages; only a page that parses to zero listings
(such as a page whose structure matched no selector) ends the run early with
what was already collected; no fallback exists on this path. -/
theorem scrape_city_listings_spec :
    ∀ ps qs : List PageResult,
      scrape_city_listings (PageResult.raised :: ps) = scrape_city_listings ps ∧
      ((∀ ls, PageResult.parsed ls ∈ ps → ls ≠ []) →
        scrape_city_listings (ps ++ PageResult.parsed [] :: qs) =
          scrape_city_listings ps) := by
  intro ps qs
  constructor
  · rfl
  · induction ps with
    | nil => intro _; rfl
    | cons p ps ih =>
      intro h
      have hps : ∀ ls, PageResult.parsed ls ∈ ps → ls ≠ [] :=
        fun ls hm => h ls (List.mem_cons_of_mem p hm)
      cases p with
      | raised =>
        show scrape_city_listings (ps ++ PageResult.parsed [] :: qs) =
          scrape_city_listings ps
        exact ih hps
      | parsed ls0 =>
        cases ls0 with
        | nil => exact absurd rfl (h [] (List.mem_cons_self _ _))
        | cons a as =>
          show (a :: as) ++ scrape_city_listings (ps ++ PageResult.parsed [] :: qs) =
            (a :: as) ++ scrape_city_listings ps
          rw [ih hps]

/-- C8: the fallback collector never comes back empty: whenever the API
probe fails, the fetch raises, or the fetch yields no records, the result is
exactly the synthetic mock frame, which holds one record per configured
region and period (twenty in all) and tags every record with the mock source
identifier cbs_mock, so callers can tell the fallback was used; and a
non-empty real frame is returned as is, so the overall result is never
empty. -/
theorem collect_cbs_fallback_spec :
    ∀ env : CBSEnv,
      collect_cbs_data_with_fallback env ≠ [] ∧
      ((env.api_available = false ∨ env.fetch = FetchOutcome.raised ∨
          env.fetch = FetchOutcome.ok []) →
        collect_cbs_data_with_fallback env = generate_mock_cbs_data env.h) ∧
      (generate_mock_cbs_data env.h).length =
        cbs_regions.length * cbs_periods.length ∧
      ∀ r ∈ generate_mock_cbs_data env.h, r.source = "cbs_mock" := by
  intro env
  obtain ⟨api, fetch, h⟩ := env
  have hlen : (generate_mock_cbs_data h).length = 20 := rfl
  have hne : generate_mock_cbs_data h ≠ [] := by
    apply List.ne_nil_of_length_pos
    omega
  have hsrc : ∀ r ∈ generate_mock_cbs_data h, r.source = "cbs_mock" := by
    intro r hr
    simp only [generate_mock_cbs_data, List.mem_flatMap, List.mem_map] at hr
    obtain ⟨region, _, period, _, rfl⟩ := hr
    rfl
  cases api with
  | false => exact ⟨hne, fun _ => rfl, rfl, hsrc⟩
  | true =>
    cases fetch with
    | raised => exact ⟨hne, fun _ => rfl, rfl, hsrc⟩
    | ok records =>
      cases records with
      | nil => exact ⟨hne, fun _ => rfl, rfl, hsrc⟩
      | cons r rs =>
        refine ⟨by simp [collect_cbs_data_with_fallback], ?_, rfl, hsrc⟩
        intro hdisj
        rcases hdisj with hd | hd | hd <;> cases hd
